import Mathlib

/-!
Shallow embedding of the hetida designer structure service core:
the structural-integrity validator of `CompleteStructure`
(src/runtime/hetdesrun/structure/models.py), the virtual-structure wiring
resolution (src/runtime/hetdesrun/adapters/virtual_structure_adapter/resolve_wirings.py
and src/runtime/hetdesrun/wiring/__init__.py), the adapter dispatch layer
(src/runtime/hetdesrun/wiring/__init__.py) and the batch lookups of the
persistence service (src/runtime/hetdesrun/structure/structure_service.py).

Python dicts are embedded as association lists with unique keys maintained
by insertion (`dictInsert`), with the Python `|` / `dict.update` semantics
(right operand wins on key collisions, position of first insertion kept)
given by `dictUnion`.
-/

/-- Lookup in an association list embedding a Python dict: first entry wins
(association lists built by `dictInsert` carry each key at most once). -/
def dictLookup {α : Type} : List (String × α) → String → Option α
  | [], _ => none
  | kv :: rest, k => if kv.1 = k then some kv.2 else dictLookup rest k

/-- Insertion into an association list with Python dict semantics: an existing
key keeps its position and gets the new value, a new key is appended. -/
def dictInsert {α : Type} (d : List (String × α)) (k : String) (v : α) :
    List (String × α) :=
  if (dictLookup d k).isSome then
    d.map (fun kv => if kv.1 == k then (k, v) else kv)
  else
    d ++ [(k, v)]

/-- Build a dict from a list of key-value pairs, later entries overwriting
earlier ones (Python dict comprehension semantics). -/
def dictOfList {α : Type} (l : List (String × α)) : List (String × α) :=
  l.foldl (fun d kv => dictInsert d kv.1 kv.2) []

/-- Python `a | b` on dicts (also `a.update(b)`): all keys of both, the right
operand's value winning on key collisions. -/
def dictUnion {α : Type} (a b : List (String × α)) : List (String × α) :=
  a.map (fun kv => ((dictLookup b kv.1).elim kv (fun v => (kv.1, v)))) ++
    b.filter (fun kv => (dictLookup a kv.1).isNone)

/-- Reference id types of wirings (hetdesrun/models/adapter_data.py, not part
of the given sources; the variant used by the resolution code is THINGNODE). -/
inductive RefIdType where
  | thingnode
  | source
  | sink
deriving DecidableEq, Repr

/-- Modelled from the spec: a wiring entry (hetdesrun/models/wiring.py is not
part of the given sources) carries adapter id, reference id, reference id type,
optional reference key, declared type, a filter map, the workflow-visible name
and, for inputs, the use-default-value flag.  Filter values are embedded as
strings. -/
structure WiringEntry where
  workflow_input_name : String
  adapter_id : String
  ref_id : String
  ref_id_type : RefIdType
  ref_key : Option String
  type : String
  filters : List (String × String)
  use_default_value : Bool
deriving DecidableEq, Repr

/-- A Source of the structure service (structure/models.py), restricted to the
fields the validator and the wiring resolution read. -/
structure Source where
  external_id : String
  stakeholder_key : String
  name : String
  type : String
  preset_filters : List (String × String)
  adapter_key : String
  source_id : String
  ref_key : Option String
  ref_id : String
  thing_node_external_ids : Option (List String)
deriving DecidableEq, Repr

/-- A Sink of the structure service (structure/models.py), restricted to the
fields the validator and the wiring resolution read. -/
structure Sink where
  external_id : String
  stakeholder_key : String
  name : String
  type : String
  preset_filters : List (String × String)
  adapter_key : String
  sink_id : String
  ref_key : Option String
  ref_id : String
  thing_node_external_ids : Option (List String)
deriving DecidableEq, Repr

/-- The `Source | Sink` union taken by `update_wirings`; the `isinstance`
check of the Python code becomes a case split on this sum. -/
inductive SourceOrSink where
  | src (s : Source)
  | snk (s : Sink)
deriving DecidableEq, Repr

def SourceOrSink.adapter_key : SourceOrSink → String
  | .src s => s.adapter_key
  | .snk s => s.adapter_key

def SourceOrSink.ref_id : SourceOrSink → String
  | .src s => s.ref_id
  | .snk s => s.ref_id

def SourceOrSink.ref_key : SourceOrSink → Option String
  | .src s => s.ref_key
  | .snk s => s.ref_key

def SourceOrSink.preset_filters : SourceOrSink → List (String × String)
  | .src s => s.preset_filters
  | .snk s => s.preset_filters

/-- The adapter-local id: `source_id` for a Source, `sink_id` for a Sink
(the `isinstance(source_or_sink, Source)` branch of `update_wirings`). -/
def SourceOrSink.local_id : SourceOrSink → String
  | .src s => s.source_id
  | .snk s => s.sink_id

/-- Embedding of `update_wirings`
(adapters/virtual_structure_adapter/resolve_wirings.py, lines 10-40):
rewrites a wiring entry with the data of the resolved Source/Sink.  The
in-place mutation of the Python code becomes a functional record update. -/
def update_wirings (wiring : WiringEntry) (source_or_sink : SourceOrSink) :
    WiringEntry :=
  if wiring.type = "metadata(any)" then
    { wiring with
        adapter_id := source_or_sink.adapter_key,
        ref_id := source_or_sink.ref_id,
        ref_key := source_or_sink.ref_key,
        ref_id_type := RefIdType.thingnode,
        filters := dictUnion wiring.filters source_or_sink.preset_filters }
  else
    { wiring with
        adapter_id := source_or_sink.adapter_key,
        ref_id := source_or_sink.local_id,
        filters := dictUnion wiring.filters source_or_sink.preset_filters }

/-- Modelled from the spec:
`get_actual_sources_and_sinks_for_virtual_sources_and_sinks`
(adapters/virtual_structure_adapter/utils.py) is not part of the given
sources.  Per the spec the wiring it returns for a virtual reference points at
the resolved Source's own adapter and source id and carries the Source's
preset filters as its filter map. -/
def actual_wiring_of_source (s : Source) : WiringEntry :=
  { workflow_input_name := "",
    adapter_id := s.adapter_key,
    ref_id := s.source_id,
    ref_id_type := RefIdType.source,
    ref_key := s.ref_key,
    type := s.type,
    filters := s.preset_filters,
    use_default_value := false }

/-- Embedding of the per-entry body of `resolve_virtual_wirings`
(wiring/__init__.py, lines 39-46): the resolved wiring keeps the original
workflow input name and merges its own filters with the caller's filters via
`new_wiring.filters | workflow_wiring.input_wirings[idx].filters`, so the
caller-supplied value wins on key collisions. -/
def resolve_virtual_wiring_entry (actual : WiringEntry) (wiring : WiringEntry) :
    WiringEntry :=
  { actual with
      workflow_input_name := wiring.workflow_input_name,
      filters := dictUnion actual.filters wiring.filters }

/-- An ElementType of the structure service (structure/models.py), restricted
to the fields the validator reads. -/
structure ElementType where
  external_id : String
  stakeholder_key : String
  name : String
deriving DecidableEq, Repr

/-- A ThingNode of the structure service (structure/models.py), restricted to
the fields the validator reads. -/
structure ThingNode where
  external_id : String
  stakeholder_key : String
  name : String
  parent_external_node_id : Option String
  element_type_external_id : String
deriving DecidableEq, Repr

/-- The raw input of `CompleteStructure` validation: the four entity lists. -/
structure CompleteStructure where
  element_types : List ElementType
  thing_nodes : List ThingNode
  sources : List Source
  sinks : List Sink
deriving DecidableEq, Repr

/-- The errors the validators of `CompleteStructure` can produce.  Each
constructor records the data interpolated into the corresponding Python
error message.  `typeErrorNotIterable` embeds the Python `TypeError` raised
when a validator iterates a `None` value of `thing_node_external_ids`;
`nameErrorUnboundSource` embeds the Python `NameError` raised at
models.py line 556 when the sink loop reads the loop variable `source`
although the sources list was empty. -/
inductive StructuralError where
  | emptyElementTypes
  | danglingParent (nodeName : String) (parentId : String)
  | duplicatePair (stakeholderKey : String) (externalId : String) (listName : String)
  | duplicateThingNodeId (elementExternalId : String) (listName : String) (dupId : String)
  | typeErrorNotIterable
  | stakeholderMismatch (nodeId : String) (expected : String) (found : String)
  | circularReference (nodeId : String)
  | sourceRefMissing (sourceExternalId : String) (tnId : String)
  | sinkRefMissing (namedSourceExternalId : String) (tnId : String)
  | nameErrorUnboundSource (tnId : String)
deriving DecidableEq, Repr

/-- Embedding of `validate_root_nodes_parent_ids_are_none`
(structure/models.py, lines 360-377): every non-`None`
`parent_external_node_id` must occur among the submitted ThingNode external
ids; the error names the offending node's name and the missing parent id. -/
def validate_root_nodes_parent_ids_are_none (s : CompleteStructure) :
    Option StructuralError :=
  s.thing_nodes.findSome? (fun node =>
    match node.parent_external_node_id with
    | none => none
    | some parent_ext_id =>
        if parent_ext_id ∈ s.thing_nodes.map (fun n => n.external_id) then none
        else some (.danglingParent node.name parent_ext_id))

/-- The first element of `l` that repeats an earlier element (or a member of
`seen`), scanning left to right with a seen-set, as the uniqueness passes of
the validator do. -/
def findDup {α : Type} [DecidableEq α] : List α → List α → Option α
  | [], _ => none
  | a :: rest, seen => if a ∈ seen then some a else findDup rest (a :: seen)

/-- The (stakeholder key, external id) pairs of one entity list. -/
def pairsOf {α : Type} (stakeholder : α → String) (external : α → String)
    (l : List α) : List (String × String) :=
  l.map (fun a => (stakeholder a, external a))

/-- The four entity lists of a submission as (list name, pair list), in the
iteration order of `values.items()` for a submitted structure document. -/
def allPairLists (s : CompleteStructure) : List (String × List (String × String)) :=
  [("element_types", pairsOf ElementType.stakeholder_key ElementType.external_id s.element_types),
   ("thing_nodes", pairsOf ThingNode.stakeholder_key ThingNode.external_id s.thing_nodes),
   ("sources", pairsOf Source.stakeholder_key Source.external_id s.sources),
   ("sinks", pairsOf Sink.stakeholder_key Sink.external_id s.sinks)]

/-- Embedding of `check_for_duplicate_key_and_id_pairs`
(structure/models.py, lines 379-395): for each entity list independently,
reject on the first repeated (stakeholder key, external id) pair, naming the
pair and the list. -/
def check_for_duplicate_key_and_id_pairs (s : CompleteStructure) :
    Option StructuralError :=
  (allPairLists s).findSome? (fun nl =>
    match findDup nl.2 [] with
    | some p => some (.duplicatePair p.1 p.2 nl.1)
    | none => none)

/-- The per-element body of
`check_for_duplicate_ids_in_thing_node_external_ids`: iterating a `None`
value raises a Python `TypeError` (embedded as `typeErrorNotIterable`),
otherwise the first repeated id is reported. -/
def dupTnIdsErr (listName : String) (extId : String)
    (tne : Option (List String)) : Option StructuralError :=
  match tne with
  | none => some StructuralError.typeErrorNotIterable
  | some ids =>
      match findDup ids [] with
      | some i => some (.duplicateThingNodeId extId listName i)
      | none => none

/-- Embedding of `check_for_duplicate_ids_in_thing_node_external_ids`
(structure/models.py, lines 397-418): for every Source and Sink, the entries
of `thing_node_external_ids` must be pairwise distinct (sources first, then
sinks, in list order). -/
def check_for_duplicate_ids_in_thing_node_external_ids (s : CompleteStructure) :
    Option StructuralError :=
  match s.sources.findSome? (fun src =>
      dupTnIdsErr "sources" src.external_id src.thing_node_external_ids) with
  | some e => some e
  | none =>
      s.sinks.findSome? (fun sk =>
        dupTnIdsErr "sinks" sk.external_id sk.thing_node_external_ids)

/-- Outcome of a fuel-driven check: pass, fail with an error, or fuel
exhausted (the Python code has no fuel; `fuelOut` marks where the embedding
would need more fuel and is propagated, never silently dropped). -/
inductive Check3 where
  | pass
  | fail (e : StructuralError)
  | fuelOut
deriving DecidableEq, Repr

/-- The child nodes of the node with external id `ext`, in list order
(the list comprehension over `thing_nodes` in
`check_stakeholder_key_consistency`). -/
def childNodes (thing_nodes : List ThingNode) (ext : String) : List ThingNode :=
  thing_nodes.filter (fun n => n.parent_external_node_id == some ext)

/-- The stack-driven depth-first walk of `check_stakeholder_key_consistency`
(structure/models.py, lines 440-482).  The Python `stack.pop()` takes the
list's last element and `stack.extend` appends, so pushing the children in
reverse at the front of a head-popped list reproduces the visit order. -/
def stakeholderWalk (thing_nodes : List ThingNode) (expected : String) :
    Nat → List ThingNode → List String → Check3
  | _, [], _ => .pass
  | 0, _ :: _, _ => .fuelOut
  | fuel + 1, current :: rest, visited =>
    if current.external_id ∈ visited then
      stakeholderWalk thing_nodes expected fuel rest visited
    else if current.stakeholder_key ≠ expected then
      .fail (.stakeholderMismatch current.external_id expected current.stakeholder_key)
    else
      stakeholderWalk thing_nodes expected fuel
        ((childNodes thing_nodes current.external_id).reverse ++ rest)
        (current.external_id :: visited)

/-- Embedding of `check_stakeholder_key_consistency`
(structure/models.py, lines 420-484): for every root node (no parent) the
whole hierarchy below it must carry the root's stakeholder key.  The fuel
bound covers every walk: each node is processed as unvisited at most once and
pushes at most `n` children, so a walk pops at most `n * n + n + 1` nodes. -/
def check_stakeholder_key_consistency (s : CompleteStructure) : Check3 :=
  let n := s.thing_nodes.length
  let roots := s.thing_nodes.filter (fun node => node.parent_external_node_id == none)
  roots.foldl
    (fun acc root =>
      match acc with
      | .pass => stakeholderWalk s.thing_nodes root.stakeholder_key
          (n * n + n + 1) [root] []
      | other => other)
    .pass

/-- The `nodes_by_external_id` dict of `check_for_circular_reference`: a
Python dict comprehension keyed by external id, so a later node with the same
external id overwrites an earlier one. -/
def lookupNode (thing_nodes : List ThingNode) (a : String) : Option ThingNode :=
  thing_nodes.reverse.find? (fun n => n.external_id == a)

/-- The truthiness test `if parent_external_id and ...` of the Python code:
`None` and the empty string both fail it. -/
def truthyParent (n : ThingNode) : Option String :=
  match n.parent_external_node_id with
  | none => none
  | some p => if p = "" then none else some p

/-- One step along the parent links as the cycle check follows them: from the
external id `a` to the (truthy) parent id declared by the node the
`nodes_by_external_id` dict holds for `a`. -/
def stepFn (thing_nodes : List ThingNode) (a : String) : Option String :=
  match lookupNode thing_nodes a with
  | none => none
  | some n => truthyParent n

/-- `iterStep nodes k a` follows `k` parent-link steps from `a`
(`none` when a step is missing). -/
def iterStep (thing_nodes : List ThingNode) : Nat → String → Option String
  | 0, a => some a
  | k + 1, a =>
      match stepFn thing_nodes a with
      | none => none
      | some b => iterStep thing_nodes k b

/-- The thing_nodes' parent links contain a cycle: some external id reaches
itself again after at least one parent-link step. -/
def HasCycle (thing_nodes : List ThingNode) : Prop :=
  ∃ a k, iterStep thing_nodes (k + 1) a = some a

/-- Result of one `visit` of the cycle check. -/
inductive VisitRes where
  | ok
  | cycleErr (id : String)
  | fuelOut
deriving DecidableEq, Repr

/-- The recursive `visit` of `check_for_circular_reference`
(structure/models.py, lines 501-519): raise if the current node is already on
the path, otherwise put it on the path and walk to its parent when the parent
id is truthy and resolvable.  The Python removal of the marker on return needs
no counterpart here because the path is threaded as an argument. -/
def visit (thing_nodes : List ThingNode) :
    Nat → List String → ThingNode → VisitRes
  | 0, _, _ => .fuelOut
  | fuel + 1, visited, n =>
    if n.external_id ∈ visited then .cycleErr n.external_id
    else
      match truthyParent n with
      | none => .ok
      | some p =>
          match lookupNode thing_nodes p with
          | none => .ok
          | some pn => visit thing_nodes fuel (n.external_id :: visited) pn

/-- Embedding of `check_for_circular_reference`
(structure/models.py, lines 486-528): start a `visit` from every node; the
first cycle error (if any) is the validation error.  The fuel
`thing_nodes.length + 1` is proved sufficient below
(`visit_ne_fuelOut`). -/
def check_for_circular_reference (thing_nodes : List ThingNode) : Option String :=
  thing_nodes.findSome? (fun n =>
    match visit thing_nodes (thing_nodes.length + 1) [] n with
    | .cycleErr i => some i
    | _ => none)

/-- Embedding of `validate_source_sink_references`
(structure/models.py, lines 530-560): every id in a Source's or Sink's
`thing_node_external_ids` must be a submitted ThingNode external id.  The sink
branch reproduces the Python code literally: its error message interpolates
the loop variable `source` left over from the preceding sources loop, so it
names the LAST SOURCE's external id (`sinkRefMissing`), and when the sources
list is empty that variable is unbound and a Python `NameError` is raised
(`nameErrorUnboundSource`).  Iterating a `None` value raises `TypeError`. -/
def sourceRefErr (thing_nodes : List ThingNode) (src : Source) :
    Option StructuralError :=
  match src.thing_node_external_ids with
  | none => some StructuralError.typeErrorNotIterable
  | some ids =>
      ids.findSome? (fun tn_id =>
        if tn_id ∈ thing_nodes.map ThingNode.external_id then none
        else some (.sourceRefMissing src.external_id tn_id))

/-- The per-sink body of `validate_source_sink_references`, reproducing the
Python code literally: the error message interpolates the loop variable
`source` left over from the preceding sources loop (models.py line 556), so
it names the LAST SOURCE's external id, and when the sources list is empty
that variable is unbound and a Python `NameError` is raised. -/
def sinkRefErr (thing_nodes : List ThingNode) (sources : List Source)
    (sk : Sink) : Option StructuralError :=
  match sk.thing_node_external_ids with
  | none => some StructuralError.typeErrorNotIterable
  | some ids =>
      ids.findSome? (fun tn_id =>
        if tn_id ∈ thing_nodes.map ThingNode.external_id then none
        else
          match sources.getLast? with
          | some lastSource => some (.sinkRefMissing lastSource.external_id tn_id)
          | none => some (.nameErrorUnboundSource tn_id))

def validate_source_sink_references (s : CompleteStructure) :
    Option StructuralError :=
  match s.sources.findSome? (fun src => sourceRefErr s.thing_nodes src) with
  | some e => some e
  | none =>
      s.sinks.findSome? (fun sk => sinkRefErr s.thing_nodes s.sources sk)

/-- Embedding of `check_element_types_not_empty`
(structure/models.py, lines 352-358): a field validator, hence run by
pydantic only after every `pre=True` root validator has passed. -/
def check_element_types_not_empty (s : CompleteStructure) :
    Option StructuralError :=
  if s.element_types.isEmpty then some .emptyElementTypes else none

/-- Overall outcome of constructing a `CompleteStructure`. -/
inductive VRes where
  | accepted
  | rejected (e : StructuralError)
  | fuelOut
deriving DecidableEq, Repr

/-- The full validation pipeline of `CompleteStructure` in pydantic v1
execution order: the five `pre=True` root validators in definition order
(models.py lines 360, 379, 397, 420, 486, 530), then the field validator
`check_element_types_not_empty` (line 352), since pydantic runs pre-root
validators before any field validation. -/
def validateStructure (s : CompleteStructure) : VRes :=
  match validate_root_nodes_parent_ids_are_none s with
  | some e => .rejected e
  | none =>
  match check_for_duplicate_key_and_id_pairs s with
  | some e => .rejected e
  | none =>
  match check_for_duplicate_ids_in_thing_node_external_ids s with
  | some e => .rejected e
  | none =>
  match check_stakeholder_key_consistency s with
  | .fail e => .rejected e
  | .fuelOut => .fuelOut
  | .pass =>
  match check_for_circular_reference s.thing_nodes with
  | some i => .rejected (.circularReference i)
  | none =>
  match validate_source_sink_references s with
  | some e => .rejected e
  | none =>
  match check_element_types_not_empty s with
  | some e => .rejected e
  | none => .accepted

/-- The filtered-source descriptor handed to an adapter's load function
(hetdesrun/models/data_selection.py is not part of the given sources; the
fields are exactly those filled in wiring/__init__.py, lines 73-79). -/
structure FilteredSource where
  ref_id : String
  ref_id_type : RefIdType
  ref_key : Option String
  type : String
  filters : List (String × String)
deriving DecidableEq, Repr

/-- The `FilteredSource(...)` construction of wiring/__init__.py lines 73-79. -/
def toFilteredSource (w : WiringEntry) : FilteredSource :=
  { ref_id := w.ref_id,
    ref_id_type := w.ref_id_type,
    ref_key := w.ref_key,
    type := w.type,
    filters := w.filters }

/-- Append a wiring to its adapter's group, creating the group at the end when
the adapter key is new (Python `defaultdict(list)` insertion-order
semantics). -/
def addToGroups (gs : List (String × List WiringEntry)) (k : String)
    (w : WiringEntry) : List (String × List WiringEntry) :=
  if gs.any (fun g => g.1 == k) then
    gs.map (fun g => if g.1 == k then (g.1, g.2 ++ [w]) else g)
  else
    gs ++ [(k, [w])]

/-- The `wirings_by_adapter` grouping loop of `resolve_and_load_data_from_wiring`
(wiring/__init__.py, lines 59-63): wirings whose `use_default_value` flag is
set are skipped entirely, the rest are grouped by `adapter_id` in insertion
order. -/
def wirings_by_adapter (input_wirings : List WiringEntry) :
    List (String × List WiringEntry) :=
  input_wirings.foldl
    (fun gs w => if w.use_default_value = false then addToGroups gs w.adapter_id w else gs)
    []

/-- The per-adapter load calls made by `resolve_and_load_data_from_wiring`:
one call per adapter group, with the batch dict keyed by workflow input name
(the dict comprehension of wiring/__init__.py, lines 72-81). -/
def loadCalls (input_wirings : List WiringEntry) :
    List (String × List (String × FilteredSource)) :=
  (wirings_by_adapter input_wirings).map (fun g =>
    (g.1, dictOfList (g.2.map (fun w => (w.workflow_input_name, toFilteredSource w)))))

/-- Embedding of `resolve_and_load_data_from_wiring`
(wiring/__init__.py, lines 51-85): group the input wirings by adapter,
invoke the adapter's load function once per group with the batch, and merge
the returned maps into `loaded_data` via `dict.update`.  The registry lookup
`load_data_from_adapter` is abstracted as the function argument `load`. -/
def resolve_and_load_data_from_wiring {β : Type}
    (load : String → List (String × FilteredSource) → List (String × β))
    (input_wirings : List WiringEntry) : List (String × β) :=
  (loadCalls input_wirings).foldl
    (fun loaded_data call => dictUnion loaded_data (load call.1 call.2))
    []

/-- Lookup of a stored entity by primary key: the
`select(...).where(... == id)` / `scalar_one_or_none` queries of
structure/structure_service.py, with the store embedded as an association
list from id to entity. -/
def dbLookup {α : Type} : List (Nat × α) → Nat → Option α
  | [], _ => none
  | kv :: rest, i => if kv.1 = i then some kv.2 else dbLookup rest i

/-- Embedding of the single-entity lookups `get_single_thingnode_from_db`,
`get_single_source_from_db` and `get_single_sink_from_db`
(structure/structure_service.py, lines 37-47, 67-77, 97-107): return the
stored entity or raise `DBNotFoundError`, embedded as `Except` carrying the
missing id. -/
def get_single_entity_from_db {α : Type} (db : List (Nat × α)) (i : Nat) :
    Except Nat α :=
  match dbLookup db i with
  | some e => .ok e
  | none => .error i

/-- Embedding of the batch lookups `get_collection_of_thingnodes_from_db`,
`get_collection_of_sources_from_db` and `get_collection_of_sinks_from_db`
(structure/structure_service.py, lines 60-64, 89-94, 120-125): a dict
comprehension over the requested ids, each entry fetched with the single
lookup, so the first missing id raises for the whole call. -/
def get_collection_of_entities_from_db {α : Type} (db : List (Nat × α)) :
    List Nat → Except Nat (List (Nat × α))
  | [] => .ok []
  | i :: rest =>
      match get_single_entity_from_db db i with
      | .error j => .error j
      | .ok e =>
          match get_collection_of_entities_from_db db rest with
          | .error j => .error j
          | .ok m => .ok ((i, e) :: m)

/-- Two thing nodes whose parent links form the cycle a -> b -> a. -/
def cyclicNodes : List ThingNode :=
  [{ external_id := "a", stakeholder_key := "SK1", name := "A",
     parent_external_node_id := some "b", element_type_external_id := "T" },
   { external_id := "b", stakeholder_key := "SK1", name := "B",
     parent_external_node_id := some "a", element_type_external_id := "T" }]

/-- A submission with an empty `element_types` list AND a thing node whose
parent id references no existing node: both the empty-element-types check and
the dangling-parent check apply to it. -/
def emptyAndDanglingStructure : CompleteStructure :=
  { element_types := [],
    thing_nodes :=
      [{ external_id := "Node1", stakeholder_key := "SK1", name := "Node 1",
         parent_external_node_id := some "MissingParent",
         element_type_external_id := "Type1" }],
    sources := [],
    sinks := [] }

/-- A submission whose only sink references a non-existing ThingNode while a
source is present: the offending entity is the sink "Sink1", the last (and
only) source is "Source1". -/
def sinkBadRefStructure : CompleteStructure :=
  { element_types :=
      [{ external_id := "Type1", stakeholder_key := "SK1", name := "Type 1" }],
    thing_nodes :=
      [{ external_id := "Node1", stakeholder_key := "SK1", name := "Node 1",
         parent_external_node_id := none, element_type_external_id := "Type1" }],
    sources :=
      [{ external_id := "Source1", stakeholder_key := "SK1", name := "Source 1",
         type := "multitsframe", preset_filters := [], adapter_key := "sql-adapter",
         source_id := "sid1", ref_key := none, ref_id := "",
         thing_node_external_ids := some ["Node1"] }],
    sinks :=
      [{ external_id := "Sink1", stakeholder_key := "SK1", name := "Sink 1",
         type := "multitsframe", preset_filters := [], adapter_key := "sql-adapter",
         sink_id := "kid1", ref_key := none, ref_id := "",
         thing_node_external_ids := some ["GhostNode"] }] }

/-- A fully valid submission whose only source has an EMPTY
`thing_node_external_ids` list. -/
def emptyAttachmentStructure : CompleteStructure :=
  { element_types :=
      [{ external_id := "Type1", stakeholder_key := "SK1", name := "Type 1" }],
    thing_nodes := [],
    sources :=
      [{ external_id := "Source1", stakeholder_key := "SK1", name := "Source 1",
         type := "multitsframe", preset_filters := [], adapter_key := "sql-adapter",
         source_id := "sid1", ref_key := none, ref_id := "",
         thing_node_external_ids := some [] }],
    sinks := [] }

/-- A fully valid submission in which the SAME (stakeholder key, external id)
pair ("SK1", "X") occurs in two different lists (element_types and
thing_nodes) while every list is internally duplicate-free. -/
def crossListPairStructure : CompleteStructure :=
  { element_types :=
      [{ external_id := "X", stakeholder_key := "SK1", name := "Type X" }],
    thing_nodes :=
      [{ external_id := "X", stakeholder_key := "SK1", name := "Node X",
         parent_external_node_id := none, element_type_external_id := "X" }],
    sources := [],
    sinks := [] }

/-- A wiring entry whose caller supplied the filter value "MWh" for the key
"unit". -/
def unitWiring : WiringEntry :=
  { workflow_input_name := "inp", adapter_id := "virtual-structure-adapter",
    ref_id := "11111111-1111-1111-1111-111111111111",
    ref_id_type := RefIdType.source, ref_key := none, type := "timeseries",
    filters := [("unit", "MWh")], use_default_value := false }

/-- A source whose preset filters fix the value "kWh" for the key "unit". -/
def unitSource : Source :=
  { external_id := "EnergyConsumption", stakeholder_key := "SK1",
    name := "Energy consumption", type := "timeseries",
    preset_filters := [("unit", "kWh")], adapter_key := "sql-adapter",
    source_id := "energy_source_id", ref_key := none, ref_id := "",
    thing_node_external_ids := some ["Waterworks1"] }

/-- A wiring entry for the adapter "sql-adapter" under the workflow input
name "inp_a". -/
def wireA : WiringEntry :=
  { workflow_input_name := "inp_a", adapter_id := "sql-adapter",
    ref_id := "ra", ref_id_type := RefIdType.source, ref_key := none,
    type := "timeseries", filters := [], use_default_value := false }

/-- A wiring entry for the adapter "rest-adapter" under the workflow input
name "inp_b". -/
def wireB : WiringEntry :=
  { workflow_input_name := "inp_b", adapter_id := "rest-adapter",
    ref_id := "rb", ref_id_type := RefIdType.source, ref_key := none,
    type := "timeseries", filters := [], use_default_value := false }

/-- A wiring entry whose use-default-value flag is set: the dispatch layer
must skip it entirely. -/
def wireSkip : WiringEntry :=
  { workflow_input_name := "inp_c", adapter_id := "sql-adapter",
    ref_id := "rc", ref_id_type := RefIdType.source, ref_key := none,
    type := "timeseries", filters := [], use_default_value := true }

/-- A submission whose element_types list contains the pair ("SK1", "T1")
twice. -/
def dupPairStructure : CompleteStructure :=
  { element_types :=
      [{ external_id := "T1", stakeholder_key := "SK1", name := "Type one" },
       { external_id := "T1", stakeholder_key := "SK1", name := "Type one bis" }],
    thing_nodes := [],
    sources := [],
    sinks := [] }

lemma dictLookup_map_override {α : Type} (a b : List (String × α)) (k : String) :
    dictLookup (a.map (fun kv => ((dictLookup b kv.1).elim kv (fun v => (kv.1, v))))) k =
      match dictLookup a k with
      | none => none
      | some v =>
          match dictLookup b k with
          | some w => some w
          | none => some v := by
  induction a with
  | nil => simp [dictLookup]
  | cons kv rest ih =>
      rw [List.map_cons]
      rcases hb : dictLookup b kv.1 with _ | w
      · rw [Option.elim_none]
        by_cases h : kv.1 = k
        · simp [dictLookup, h, h ▸ hb]
        · simp only [dictLookup, h, if_false, ih]
      · rw [Option.elim_some]
        by_cases h : kv.1 = k
        · simp [dictLookup, h, h ▸ hb]
        · simp only [dictLookup, h, if_false, ih]

lemma dictLookup_filter_unseen {α : Type} (a b : List (String × α)) (k : String) :
    dictLookup (b.filter (fun kv => (dictLookup a kv.1).isNone)) k =
      match dictLookup a k with
      | some _ => none
      | none => dictLookup b k := by
  induction b with
  | nil => cases dictLookup a k <;> simp [dictLookup]
  | cons kv rest ih =>
      rw [List.filter_cons]
      rcases hkv : dictLookup a kv.1 with _ | v
      · rw [Option.isNone_none, if_pos rfl]
        by_cases h : kv.1 = k
        · simp [dictLookup, h, h ▸ hkv]
        · simp only [dictLookup, h, if_false, ih]
      · rw [Option.isNone_some, if_neg (by simp)]
        by_cases h : kv.1 = k
        · have hk : dictLookup a k = some v := by rw [← h]; exact hkv
          rw [ih, hk]
        · rw [ih]
          rcases dictLookup a k with _ | u
          · simp [dictLookup, h]
          · rfl

lemma dictLookup_append {α : Type} (a b : List (String × α)) (k : String) :
    dictLookup (a ++ b) k =
      match dictLookup a k with
      | some v => some v
      | none => dictLookup b k := by
  induction a with
  | nil => simp [dictLookup]
  | cons kv rest ih =>
      by_cases h : kv.1 = k
      · simp [dictLookup, h]
      · simp only [List.cons_append, dictLookup, h, if_false, List.append_eq, ih]

/-- Pointwise characterization of the Python dict union `a | b`: the right
operand's value wins whenever its key is present, otherwise the left
operand's value is kept. -/
lemma dictLookup_dictUnion {α : Type} (a b : List (String × α)) (k : String) :
    dictLookup (dictUnion a b) k =
      match dictLookup b k with
      | some v => some v
      | none => dictLookup a k := by
  rw [dictUnion, dictLookup_append, dictLookup_map_override,
    dictLookup_filter_unseen]
  rcases dictLookup a k with _ | v <;> rcases dictLookup b k with _ | w <;> simp

/-- C2: for every wiring entry rewritten by virtual-structure resolution
(`update_wirings`), the resulting filter map is the union of the wiring's
existing filter map and the resolved Source/Sink's preset filters, and on
every key present in both, the preset filter's value wins over the
caller-supplied value. -/
theorem update_wirings_filter_merge (w : WiringEntry) (ss : SourceOrSink)
    (k : String) :
    (update_wirings w ss).filters = dictUnion w.filters ss.preset_filters ∧
    dictLookup (update_wirings w ss).filters k =
      (match dictLookup ss.preset_filters k with
       | some v => some v
       | none => dictLookup w.filters k) ∧
    ((dictLookup (update_wirings w ss).filters k).isSome ↔
      ((dictLookup w.filters k).isSome ∨ (dictLookup ss.preset_filters k).isSome)) := by
  have hf : (update_wirings w ss).filters = dictUnion w.filters ss.preset_filters := by
    unfold update_wirings
    split <;> rfl
  refine ⟨hf, ?_, ?_⟩
  · rw [hf, dictLookup_dictUnion]
    rcases dictLookup ss.preset_filters k with _ | u <;> rfl
  · rw [hf, dictLookup_dictUnion]
    rcases dictLookup w.filters k with _ | v <;>
      rcases dictLookup ss.preset_filters k with _ | u <;> simp

/-- C3: `update_wirings` sets `adapter_id` to the resolved entity's adapter
key; when the wiring's declared type is the metadata-reference type
"metadata(any)" it sets `ref_id` to the entity's associated ThingNode id
(`ref_id`), `ref_key` to the entity's reference key and `ref_id_type` to the
ThingNode-reference kind; otherwise it sets `ref_id` to the entity's own
adapter-local source id (Source) or sink id (Sink) and leaves `ref_key` and
`ref_id_type` unchanged. -/
theorem update_wirings_ref_resolution (w : WiringEntry) (ss : SourceOrSink) :
    (update_wirings w ss).adapter_id = ss.adapter_key ∧
    (w.type = "metadata(any)" →
      (update_wirings w ss).ref_id = ss.ref_id ∧
      (update_wirings w ss).ref_key = ss.ref_key ∧
      (update_wirings w ss).ref_id_type = RefIdType.thingnode) ∧
    (w.type ≠ "metadata(any)" →
      (update_wirings w ss).ref_id = ss.local_id ∧
      (update_wirings w ss).ref_key = w.ref_key ∧
      (update_wirings w ss).ref_id_type = w.ref_id_type) := by
  unfold update_wirings
  by_cases h : w.type = "metadata(any)" <;> simp [h]

/-- Instantiation of `update_wirings_ref_resolution` at a concrete
non-metadata wiring and a concrete Source. -/
theorem update_wirings_ref_resolution_witness :
    (update_wirings unitWiring (SourceOrSink.src unitSource)).adapter_id =
      (SourceOrSink.src unitSource).adapter_key ∧
    (unitWiring.type = "metadata(any)" →
      (update_wirings unitWiring (SourceOrSink.src unitSource)).ref_id =
        (SourceOrSink.src unitSource).ref_id ∧
      (update_wirings unitWiring (SourceOrSink.src unitSource)).ref_key =
        (SourceOrSink.src unitSource).ref_key ∧
      (update_wirings unitWiring (SourceOrSink.src unitSource)).ref_id_type =
        RefIdType.thingnode) ∧
    (unitWiring.type ≠ "metadata(any)" →
      (update_wirings unitWiring (SourceOrSink.src unitSource)).ref_id =
        (SourceOrSink.src unitSource).local_id ∧
      (update_wirings unitWiring (SourceOrSink.src unitSource)).ref_key =
        unitWiring.ref_key ∧
      (update_wirings unitWiring (SourceOrSink.src unitSource)).ref_id_type =
        unitWiring.ref_id_type) :=
  update_wirings_ref_resolution unitWiring (SourceOrSink.src unitSource)

/-- C10 counterexample: on the key "unit", supplied by the caller as "MWh"
and preset by the structure as "kWh", `update_wirings` keeps the preset value
while `resolve_virtual_wirings` keeps the caller value, so the two resolution
implementations do NOT compute the same resolved filter map. -/
theorem resolution_filter_precedence_differs :
    dictLookup (update_wirings unitWiring (SourceOrSink.src unitSource)).filters
        "unit" = some "kWh" ∧
    dictLookup (resolve_virtual_wiring_entry (actual_wiring_of_source unitSource)
        unitWiring).filters "unit" = some "MWh" ∧
    (update_wirings unitWiring (SourceOrSink.src unitSource)).filters ≠
      (resolve_virtual_wiring_entry (actual_wiring_of_source unitSource)
        unitWiring).filters := by
  decide

/-- C10 amended: for the same input wiring and the same resolved Source the
two resolution implementations agree on every key present in at most one of
the two filter maps, but on a key present in both, `update_wirings` keeps the
Source's preset value while `resolve_virtual_wirings` keeps the
caller-supplied value — opposite precedence. -/
theorem resolution_filter_merge_comparison (w : WiringEntry) (s : Source)
    (k : String) :
    dictLookup (update_wirings w (SourceOrSink.src s)).filters k =
      (match dictLookup s.preset_filters k with
       | some v => some v
       | none => dictLookup w.filters k) ∧
    dictLookup (resolve_virtual_wiring_entry (actual_wiring_of_source s) w).filters k =
      (match dictLookup w.filters k with
       | some v => some v
       | none => dictLookup s.preset_filters k) ∧
    ((dictLookup w.filters k = none ∨ dictLookup s.preset_filters k = none) →
      dictLookup (update_wirings w (SourceOrSink.src s)).filters k =
        dictLookup (resolve_virtual_wiring_entry (actual_wiring_of_source s) w).filters k) := by
  have hf : (update_wirings w (SourceOrSink.src s)).filters =
      dictUnion w.filters s.preset_filters := by
    unfold update_wirings
    split <;> rfl
  have hg : (resolve_virtual_wiring_entry (actual_wiring_of_source s) w).filters =
      dictUnion s.preset_filters w.filters := rfl
  refine ⟨?_, ?_, ?_⟩
  · rw [hf, dictLookup_dictUnion]
    rcases dictLookup s.preset_filters k with _ | u <;> rfl
  · rw [hg, dictLookup_dictUnion]
    rcases dictLookup w.filters k with _ | v <;> rfl
  · intro hone
    rw [hf, hg, dictLookup_dictUnion, dictLookup_dictUnion]
    rcases hone with hw | hp
    · rw [hw]
      rcases dictLookup s.preset_filters k with _ | u <;> simp
    · rw [hp]
      rcases dictLookup w.filters k with _ | v <;> simp

/-- Instantiation of `resolution_filter_merge_comparison` at the concrete
"unit" collision example, on a key absent from both maps. -/
theorem resolution_filter_merge_comparison_witness :
    (dictLookup unitWiring.filters "other" = none ∨
      dictLookup unitSource.preset_filters "other" = none) ∧
    dictLookup (update_wirings unitWiring (SourceOrSink.src unitSource)).filters
        "other" =
      dictLookup (resolve_virtual_wiring_entry (actual_wiring_of_source unitSource)
        unitWiring).filters "other" :=
  ⟨Or.inl (by decide),
    (resolution_filter_merge_comparison unitWiring unitSource "other").2.2
      (Or.inl (by decide))⟩

/-- C7: a batch lookup (`get_collection_of_*_from_db`) either returns a map
whose keys are exactly the requested ids with each value the stored entity,
or — as soon as any requested id is absent — fails with NotFound for the
whole call (carrying an absent requested id) and never returns a partial
map. -/
theorem get_collection_all_or_nothing {α : Type} (db : List (Nat × α))
    (ids : List Nat) :
    ((∀ i ∈ ids, (dbLookup db i).isSome) →
      ∃ m, get_collection_of_entities_from_db db ids = .ok m ∧
        m.map Prod.fst = ids ∧
        ∀ p ∈ m, dbLookup db p.1 = some p.2) ∧
    ((∃ i ∈ ids, dbLookup db i = none) →
      ∃ j, get_collection_of_entities_from_db db ids = .error j ∧ j ∈ ids ∧
        dbLookup db j = none ∧
        ∀ m, get_collection_of_entities_from_db db ids ≠ .ok m) := by
  constructor
  · induction ids with
    | nil => exact fun _ => ⟨[], rfl, rfl, by simp⟩
    | cons i rest ih =>
        intro hall
        obtain ⟨e, he⟩ := Option.isSome_iff_exists.mp (hall i (by simp))
        obtain ⟨m, hm1, hm2, hm3⟩ := ih (fun j hj => hall j (by simp [hj]))
        refine ⟨(i, e) :: m, ?_, ?_, ?_⟩
        · simp [get_collection_of_entities_from_db, get_single_entity_from_db,
            he, hm1]
        · simp [hm2]
        · intro p hp
          rcases List.mem_cons.mp hp with hp | hp
          · rw [hp]; exact he
          · exact hm3 p hp
  · induction ids with
    | nil => rintro ⟨j, hj, _⟩; exact absurd hj (List.not_mem_nil j)
    | cons i rest ih =>
        rintro ⟨j, hj, hnone⟩
        rcases hdb : dbLookup db i with _ | e
        · refine ⟨i, ?_, by simp, hdb, ?_⟩
          · simp [get_collection_of_entities_from_db,
              get_single_entity_from_db, hdb]
          · intro m
            simp [get_collection_of_entities_from_db,
              get_single_entity_from_db, hdb]
        · have hjr : j ∈ rest := by
            rcases List.mem_cons.mp hj with hji | hjr
            · rw [hji] at hnone
              rw [hnone] at hdb
              exact absurd hdb (by simp)
            · exact hjr
          obtain ⟨j', herr, hjm, hjn, hnotok⟩ := ih ⟨j, hjr, hnone⟩
          refine ⟨j', ?_, by simp [hjm], hjn, ?_⟩
          · simp [get_collection_of_entities_from_db,
              get_single_entity_from_db, hdb, herr]
          · intro m
            simp [get_collection_of_entities_from_db,
              get_single_entity_from_db, hdb, herr]

/-- Instantiation of `get_collection_all_or_nothing`: with entities stored
under ids 1 and 2, requesting ids 2 and 1 succeeds with both entries, and
requesting ids 2 and 3 fails as a whole with the missing id 3. -/
theorem get_collection_all_or_nothing_witness :
    (∀ i ∈ [2, 1], (dbLookup [(1, "a"), (2, "b")] i).isSome) ∧
    (∃ m, get_collection_of_entities_from_db [(1, "a"), (2, "b")] [2, 1] = .ok m ∧
      m.map Prod.fst = [2, 1] ∧
      ∀ p ∈ m, dbLookup [(1, "a"), (2, "b")] p.1 = some p.2) ∧
    (∃ i ∈ [2, 3], dbLookup [(1, "a"), (2, "b")] i = none) ∧
    (∃ j, get_collection_of_entities_from_db [(1, "a"), (2, "b")] [2, 3] = .error j ∧
      j ∈ [2, 3] ∧ dbLookup [(1, "a"), (2, "b")] j = none ∧
      ∀ m, get_collection_of_entities_from_db [(1, "a"), (2, "b")] [2, 3] ≠ .ok m) :=
  ⟨by decide,
    (get_collection_all_or_nothing [(1, "a"), (2, "b")] [2, 1]).1 (by decide),
    ⟨3, by decide, by decide⟩,
    (get_collection_all_or_nothing [(1, "a"), (2, "b")] [2, 3]).2
      ⟨3, by decide, by decide⟩⟩

lemma dictLookup_isSome_iff_mem_keys {α : Type} (gs : List (String × α))
    (a : String) :
    (dictLookup gs a).isSome ↔ a ∈ gs.map Prod.fst := by
  induction gs with
  | nil => simp [dictLookup]
  | cons g rest ih =>
      by_cases h : g.1 = a
      · simp [dictLookup, h]
      · simp [dictLookup, h, ih, Ne.symm h]

lemma any_key_iff_isSome {α : Type} (gs : List (String × α)) (k : String) :
    gs.any (fun g => g.1 == k) = (dictLookup gs k).isSome := by
  induction gs with
  | nil => simp [dictLookup]
  | cons g rest ih =>
      by_cases h : g.1 = k
      · simp [dictLookup, h]
      · simp [dictLookup, h, ih]

lemma dictLookup_map_appendAt (gs : List (String × List WiringEntry))
    (k : String) (w : WiringEntry) (a : String) :
    dictLookup (gs.map (fun g => if g.1 == k then (g.1, g.2 ++ [w]) else g)) a =
      if a = k then (dictLookup gs a).map (fun l => l ++ [w])
      else dictLookup gs a := by
  induction gs with
  | nil => by_cases h : a = k <;> simp [dictLookup, h]
  | cons g rest ih =>
      rw [List.map_cons]
      by_cases hg : g.1 = k
      · rw [if_pos (by simp [hg])]
        by_cases ha : g.1 = a
        · have hak : a = k := by rw [← ha, hg]
          simp [dictLookup, ha, hak]
        · simp only [dictLookup, ha, if_false, ih]
      · rw [if_neg (by simp [hg])]
        by_cases ha : g.1 = a
        · have hak : ¬a = k := by rw [← ha]; exact hg
          simp [dictLookup, ha, hak]
        · simp only [dictLookup, ha, if_false, ih]

lemma dictLookup_addToGroups (gs : List (String × List WiringEntry))
    (k : String) (w : WiringEntry) (a : String) :
    dictLookup (addToGroups gs k w) a =
      if a = k then some (((dictLookup gs k).getD []) ++ [w])
      else dictLookup gs a := by
  rw [addToGroups, any_key_iff_isSome]
  rcases hk : dictLookup gs k with _ | l
  · simp only [Option.isSome_none, Bool.false_eq_true, if_false]
    rw [dictLookup_append]
    by_cases h : a = k
    · subst h
      rw [hk]
      simp [dictLookup]
    · rcases ha : dictLookup gs a with _ | la
      · simp [dictLookup, Ne.symm h, h]
      · simp [h, ha]
  · simp only [Option.isSome_some, if_true]
    rw [dictLookup_map_appendAt]
    by_cases h : a = k
    · subst h
      rw [hk]
      rfl
    · simp [h]

lemma keys_addToGroups (gs : List (String × List WiringEntry)) (k : String)
    (w : WiringEntry) :
    (addToGroups gs k w).map Prod.fst =
      if (dictLookup gs k).isSome then gs.map Prod.fst
      else gs.map Prod.fst ++ [k] := by
  rw [addToGroups, any_key_iff_isSome]
  rcases hk : dictLookup gs k with _ | l
  · simp
  · simp only [Option.isSome_some, if_true]
    rw [List.map_map]
    refine List.map_congr_left ?_
    intro g _
    by_cases hg : g.1 = k <;> simp [hg]

lemma nodup_keys_addToGroups (gs : List (String × List WiringEntry))
    (k : String) (w : WiringEntry) (h : (gs.map Prod.fst).Nodup) :
    ((addToGroups gs k w).map Prod.fst).Nodup := by
  rw [keys_addToGroups]
  rcases hk : dictLookup gs k with _ | l
  · simp only [Option.isSome_none, Bool.false_eq_true, if_false]
    rw [List.nodup_append]
    refine ⟨h, List.nodup_singleton k, ?_⟩
    intro a ha hb
    rw [List.mem_singleton] at hb
    subst hb
    have := (dictLookup_isSome_iff_mem_keys gs a).mpr ha
    rw [hk] at this
    simp at this
  · simpa using h

lemma dictLookup_of_mem_nodup {α : Type} (gs : List (String × α))
    (h : (gs.map Prod.fst).Nodup) (g : String × α) (hg : g ∈ gs) :
    dictLookup gs g.1 = some g.2 := by
  induction gs with
  | nil => exact absurd hg (List.not_mem_nil g)
  | cons g0 rest ih =>
      rcases List.mem_cons.mp hg with hgg | hgr
      · subst hgg
        simp [dictLookup]
      · have hne : ¬g0.1 = g.1 := by
          intro he
          have hmem : g.1 ∈ rest.map Prod.fst := List.mem_map_of_mem Prod.fst hgr
          rw [List.map_cons, List.nodup_cons] at h
          exact h.1 (he ▸ hmem)
        rw [List.map_cons, List.nodup_cons] at h
        simp only [dictLookup, hne, if_false]
        exact ih h.2 hgr

lemma wba_keys_nodup (ws : List WiringEntry) :
    ∀ gs : List (String × List WiringEntry), (gs.map Prod.fst).Nodup →
    (((ws.foldl (fun gs w =>
        if w.use_default_value = false then addToGroups gs w.adapter_id w else gs)
        gs)).map Prod.fst).Nodup := by
  induction ws with
  | nil => exact fun gs h => h
  | cons w rest ih =>
      intro gs h
      rw [List.foldl_cons]
      by_cases hw : w.use_default_value = false
      · rw [if_pos hw]
        exact ih _ (nodup_keys_addToGroups gs w.adapter_id w h)
      · rw [if_neg hw]
        exact ih gs h

lemma wba_lookup (ws : List WiringEntry) :
    ∀ (gs : List (String × List WiringEntry)) (a : String),
    dictLookup (ws.foldl (fun gs w =>
        if w.use_default_value = false then addToGroups gs w.adapter_id w else gs)
        gs) a =
      (if (dictLookup gs a).isSome ∨
          (ws.filter (fun w => w.use_default_value == false)).filter
            (fun w => w.adapter_id == a) ≠ [] then
        some (((dictLookup gs a).getD []) ++
          ((ws.filter (fun w => w.use_default_value == false)).filter
            (fun w => w.adapter_id == a)))
      else none) := by
  induction ws with
  | nil =>
      intro gs a
      rcases h : dictLookup gs a with _ | l <;> simp [h]
  | cons w rest ih =>
      intro gs a
      rw [List.foldl_cons]
      cases hb : w.use_default_value with
      | true =>
          have h1 : (if (true = false)
              then addToGroups gs w.adapter_id w else gs) = gs :=
            if_neg (by simp)
          have h2 : List.filter (fun w => w.use_default_value == false) (w :: rest) =
              List.filter (fun w => w.use_default_value == false) rest := by
            rw [List.filter_cons, if_neg (by simp [hb])]
          rw [h1, h2]
          exact ih gs a
      | false =>
          have h1 : (if (false = false)
              then addToGroups gs w.adapter_id w else gs) =
              addToGroups gs w.adapter_id w := if_pos rfl
          have h2 : List.filter (fun w => w.use_default_value == false) (w :: rest) =
              w :: List.filter (fun w => w.use_default_value == false) rest := by
            rw [List.filter_cons, if_pos (by simp [hb])]
          rw [h1, h2]
          have hadd := dictLookup_addToGroups gs w.adapter_id w a
          by_cases ha : w.adapter_id = a
          · have h3 : List.filter (fun w => w.adapter_id == a)
                (w :: List.filter (fun w => w.use_default_value == false) rest) =
                w :: List.filter (fun w => w.adapter_id == a)
                  (List.filter (fun w => w.use_default_value == false) rest) := by
              rw [List.filter_cons, if_pos (by simp [ha])]
            rw [h3, ih]
            rw [if_pos ha.symm] at hadd
            rw [hadd]
            simp only [Option.isSome_some, Option.getD_some]
            rw [if_pos (Or.inl trivial)]
            rw [ha]
            rw [if_pos (Or.inr (List.cons_ne_nil w _))]
            rw [List.append_assoc, List.singleton_append]
          · have h3 : List.filter (fun w => w.adapter_id == a)
                (w :: List.filter (fun w => w.use_default_value == false) rest) =
                List.filter (fun w => w.adapter_id == a)
                  (List.filter (fun w => w.use_default_value == false) rest) := by
              rw [List.filter_cons, if_neg (by simp [ha])]
            rw [h3, ih]
            rw [if_neg (fun he => ha he.symm)] at hadd
            rw [hadd]

lemma wirings_by_adapter_lookup (ws : List WiringEntry) (a : String) :
    dictLookup (wirings_by_adapter ws) a =
      (if (ws.filter (fun w => w.use_default_value == false)).filter
            (fun w => w.adapter_id == a) ≠ [] then
        some ((ws.filter (fun w => w.use_default_value == false)).filter
          (fun w => w.adapter_id == a))
      else none) := by
  have h := wba_lookup ws [] a
  simpa [wirings_by_adapter, dictLookup] using h

/-- C8: `resolve_and_load_data_from_wiring` skips every input wiring whose
use-default-value flag is set, partitions the remaining wirings by
`adapter_id` so that every adapter of an active wiring owns exactly one
group holding exactly its own entries in order, makes one load call per
group with the batch keyed by workflow input name, and returns the
`dict.update` merge of the per-adapter result maps. -/
theorem resolve_and_load_dispatch {β : Type}
    (load : String → List (String × FilteredSource) → List (String × β))
    (ws : List WiringEntry) :
    ((wirings_by_adapter ws).map Prod.fst).Nodup ∧
    (∀ a, a ∈ (wirings_by_adapter ws).map Prod.fst ↔
      a ∈ ((ws.filter (fun w => w.use_default_value == false)).map
        WiringEntry.adapter_id)) ∧
    (∀ g ∈ wirings_by_adapter ws,
      g.2 = (ws.filter (fun w => w.use_default_value == false)).filter
        (fun w => w.adapter_id == g.1)) ∧
    loadCalls ws = (wirings_by_adapter ws).map (fun g =>
      (g.1, dictOfList (g.2.map
        (fun w => (w.workflow_input_name, toFilteredSource w))))) ∧
    resolve_and_load_data_from_wiring load ws =
      (loadCalls ws).foldl (fun acc call => dictUnion acc (load call.1 call.2)) [] := by
  have hnd : ((wirings_by_adapter ws).map Prod.fst).Nodup :=
    wba_keys_nodup ws [] (by simp)
  refine ⟨hnd, ?_, ?_, rfl, rfl⟩
  · intro a
    rw [← dictLookup_isSome_iff_mem_keys, wirings_by_adapter_lookup]
    by_cases hc : (ws.filter (fun w => w.use_default_value == false)).filter
        (fun w => w.adapter_id == a) ≠ []
    · rw [if_pos hc]
      simp only [Option.isSome_some, true_iff]
      obtain ⟨w, hw⟩ := List.exists_mem_of_ne_nil _ hc
      obtain ⟨hwq, hwp⟩ := List.mem_filter.mp hw
      refine List.mem_map.mpr ⟨w, hwq, ?_⟩
      exact eq_of_beq hwp
    · rw [if_neg hc]
      simp only [Option.isSome_none, Bool.false_eq_true, false_iff]
      intro hmem
      obtain ⟨w, hwq, hwa⟩ := List.mem_map.mp hmem
      refine hc ?_
      intro hnil
      have hwin : w ∈ (ws.filter (fun w => w.use_default_value == false)).filter
          (fun w => w.adapter_id == a) :=
        List.mem_filter.mpr ⟨hwq, by simp [hwa]⟩
      rw [hnil] at hwin
      exact absurd hwin (List.not_mem_nil w)
  · intro g hg
    have hl := dictLookup_of_mem_nodup _ hnd g hg
    rw [wirings_by_adapter_lookup] at hl
    by_cases hc : (ws.filter (fun w => w.use_default_value == false)).filter
        (fun w => w.adapter_id == g.1) ≠ []
    · rw [if_pos hc] at hl
      exact (Option.some_injective _ hl).symm
    · rw [if_neg hc] at hl
      exact absurd hl (by simp)

/-- Instantiation of `resolve_and_load_dispatch` at two wirings for the
adapters "sql-adapter" and "rest-adapter" plus one skipped
use-default-value wiring. -/
theorem resolve_and_load_dispatch_witness :
    ((wirings_by_adapter [wireA, wireB, wireSkip]).map Prod.fst).Nodup ∧
    (∀ a, a ∈ (wirings_by_adapter [wireA, wireB, wireSkip]).map Prod.fst ↔
      a ∈ (([wireA, wireB, wireSkip].filter
        (fun w => w.use_default_value == false)).map WiringEntry.adapter_id)) ∧
    (∀ g ∈ wirings_by_adapter [wireA, wireB, wireSkip],
      g.2 = ([wireA, wireB, wireSkip].filter
        (fun w => w.use_default_value == false)).filter
          (fun w => w.adapter_id == g.1)) ∧
    loadCalls [wireA, wireB, wireSkip] =
      (wirings_by_adapter [wireA, wireB, wireSkip]).map (fun g =>
        (g.1, dictOfList (g.2.map
          (fun w => (w.workflow_input_name, toFilteredSource w))))) ∧
    resolve_and_load_data_from_wiring
        (fun a _ => [("result_of_" ++ a, a)]) [wireA, wireB, wireSkip] =
      (loadCalls [wireA, wireB, wireSkip]).foldl
        (fun acc call => dictUnion acc
          ((fun a _ => [("result_of_" ++ a, a)]) call.1 call.2)) [] :=
  resolve_and_load_dispatch (fun a _ => [("result_of_" ++ a, a)])
    [wireA, wireB, wireSkip]

lemma lookupNode_mem_ext (nodes : List ThingNode) (a : String) (n : ThingNode)
    (h : lookupNode nodes a = some n) : n ∈ nodes ∧ n.external_id = a := by
  unfold lookupNode at h
  constructor
  · exact List.mem_reverse.mp (List.mem_of_find?_eq_some h)
  · have hp := @List.find?_some ThingNode (fun m => m.external_id == a) n
      nodes.reverse h
    simpa using hp

lemma find?_ext_of_mem :
    ∀ (l : List ThingNode), (l.map ThingNode.external_id).Nodup →
    ∀ n : ThingNode, n ∈ l →
    l.find? (fun m => m.external_id == n.external_id) = some n := by
  intro l
  induction l with
  | nil => intro _ n hn; exact absurd hn (List.not_mem_nil n)
  | cons m rest ih =>
      intro hnd n hn
      rw [List.map_cons, List.nodup_cons] at hnd
      rcases List.mem_cons.mp hn with hmn | hnr
      · subst hmn
        rw [List.find?_cons_of_pos _ (by simp)]
      · by_cases hme : m.external_id = n.external_id
        · exfalso
          exact hnd.1 (hme ▸ List.mem_map_of_mem ThingNode.external_id hnr)
        · rw [List.find?_cons_of_neg _ (by simp [hme])]
          exact ih hnd.2 n hnr

lemma lookupNode_eq_self (nodes : List ThingNode)
    (hnd : (nodes.map ThingNode.external_id).Nodup) (n : ThingNode)
    (hn : n ∈ nodes) : lookupNode nodes n.external_id = some n := by
  unfold lookupNode
  refine find?_ext_of_mem nodes.reverse ?_ n (List.mem_reverse.mpr hn)
  rw [List.map_reverse]
  exact List.nodup_reverse.mpr hnd

lemma nodup_subset_length {l l' : List String} (hnd : l.Nodup) (hsub : ∀ v ∈ l, v ∈ l') :
    l.length ≤ l'.length := by
  calc l.length = l.toFinset.card := (List.toFinset_card_of_nodup hnd).symm
    _ ≤ l'.toFinset.card := by
        refine Finset.card_le_card ?_
        intro a ha
        rw [List.mem_toFinset] at ha
        rw [List.mem_toFinset]
        exact hsub a ha
    _ ≤ l'.length := List.toFinset_card_le l'

/-- The fuel `nodes.length + 1` suffices for every `visit` of the cycle
check: the path markers stay pairwise distinct external ids of submitted
nodes, so the recursion depth is bounded by the node count. -/
lemma visit_ne_fuelOut (nodes : List ThingNode) :
    ∀ (fuel : Nat) (visited : List String) (n : ThingNode),
    visited.Nodup → (∀ v ∈ visited, v ∈ nodes.map ThingNode.external_id) →
    n.external_id ∈ nodes.map ThingNode.external_id →
    nodes.length + 1 ≤ fuel + visited.length →
    visit nodes fuel visited n ≠ .fuelOut := by
  intro fuel
  induction fuel with
  | zero =>
      intro visited n hnd hsub _ harith
      exfalso
      have hle : visited.length ≤ nodes.length := by
        have := nodup_subset_length hnd hsub
        simpa using this
      omega
  | succ fuel ih =>
      intro visited n hnd hsub hmem harith
      rw [visit]
      by_cases hv : n.external_id ∈ visited
      · rw [if_pos hv]
        simp
      · rw [if_neg hv]
        split
        next => simp
        next p ht =>
          split
          next => simp
          next pn hl =>
            have hpn := lookupNode_mem_ext nodes p pn hl
            refine ih (n.external_id :: visited) pn ?_ ?_ ?_ ?_
            · exact List.nodup_cons.mpr ⟨hv, hnd⟩
            · intro v hvm
              rcases List.mem_cons.mp hvm with hve | hvv
              · exact hve ▸ hmem
              · exact hsub v hvv
            · exact List.mem_map_of_mem ThingNode.external_id hpn.1
            · simp only [List.length_cons]
              omega

lemma chain_to_iter (nodes : List ThingNode) :
    ∀ (l : List String) (x y : String),
    List.Chain' (fun a b => stepFn nodes a = some b) (x :: l ++ [y]) →
    iterStep nodes (l.length + 1) x = some y := by
  intro l
  induction l with
  | nil =>
      intro x y hch
      have hch' : List.Chain' (fun a b => stepFn nodes a = some b) [x, y] := by
        simpa using hch
      have hstep := (List.chain'_cons.mp hch').1
      simp [iterStep, hstep]
  | cons b t ih =>
      intro x y hch
      have hch' : List.Chain' (fun a b => stepFn nodes a = some b)
          (x :: b :: (t ++ [y])) := by simpa using hch
      have hstep := (List.chain'_cons.mp hch').1
      have hrest := (List.chain'_cons.mp hch').2
      rw [List.length_cons, iterStep, hstep]
      exact ih b y (by simpa using hrest)

/-- When `visit` reports a cycle at external id `e`, the parent links indeed
loop from `e` back to `e`: the path of markers carried by the recursion is a
chain of parent-link steps, and the revisited id closes a cycle inside it. -/
lemma visit_cycleErr_cycle (nodes : List ThingNode)
    (hnd : (nodes.map ThingNode.external_id).Nodup) :
    ∀ (fuel : Nat) (visited : List String) (n : ThingNode) (e : String),
    n ∈ nodes →
    List.Chain' (fun a b => stepFn nodes a = some b)
      (visited.reverse ++ [n.external_id]) →
    visit nodes fuel visited n = .cycleErr e →
    ∃ k, iterStep nodes (k + 1) e = some e := by
  intro fuel
  induction fuel with
  | zero =>
      intro visited n e _ _ hv
      rw [visit] at hv
      exact absurd hv (by simp)
  | succ fuel ih =>
      intro visited n e hn hch hv
      rw [visit] at hv
      by_cases hvm : n.external_id ∈ visited
      · rw [if_pos hvm] at hv
        have he : e = n.external_id := by
          have := hv
          simp at this
          exact this.symm
        subst he
        obtain ⟨s, t, hst⟩ := List.append_of_mem (List.mem_reverse.mpr hvm)
        have hch2 : List.Chain' (fun a b => stepFn nodes a = some b)
            (n.external_id :: (t ++ [n.external_id])) := by
          rw [hst, List.append_assoc, List.cons_append] at hch
          exact List.Chain'.suffix hch (s.suffix_append _)
        exact ⟨t.length, chain_to_iter nodes t _ _ hch2⟩
      · rw [if_neg hvm] at hv
        split at hv
        next => exact absurd hv (by simp)
        next p ht =>
          split at hv
          next => exact absurd hv (by simp)
          next pn hl =>
            have hpn := lookupNode_mem_ext nodes p pn hl
            refine ih (n.external_id :: visited) pn e hpn.1 ?_ hv
            rw [List.reverse_cons]
            refine List.Chain'.append hch (List.chain'_singleton pn.external_id) ?_
            intro x hx y hy
            rw [List.getLast?_concat] at hx
            simp only [List.head?_cons, Option.mem_def, Option.some.injEq] at hx hy
            subst hx
            subst hy
            rw [stepFn, lookupNode_eq_self nodes hnd n hn]
            show truthyParent n = some pn.external_id
            rw [ht, hpn.2]

lemma iterStep_add (nodes : List ThingNode) :
    ∀ (m n : Nat) (a : String),
    iterStep nodes (m + n) a =
      match iterStep nodes m a with
      | none => none
      | some b => iterStep nodes n b := by
  intro m
  induction m with
  | zero =>
      intro n a
      simp [iterStep]
  | succ m ih =>
      intro n a
      rw [Nat.succ_add, iterStep, iterStep]
      rcases hs : stepFn nodes a with _ | b
      · rfl
      · exact ih n b

lemma cycle_rotate (nodes : List ThingNode) (a a1 : String) (k : Nat)
    (h : iterStep nodes (k + 1) a = some a) (hstep : stepFn nodes a = some a1) :
    iterStep nodes (k + 1) a1 = some a1 := by
  have h1 : iterStep nodes 1 a = some a1 := by
    rw [iterStep, hstep]
    rfl
  have h2 : iterStep nodes (k + 1 + 1) a = some a1 := by
    rw [iterStep_add nodes (k + 1) 1 a, h]
    exact h1
  have h3 : iterStep nodes (1 + (k + 1)) a = some a1 := by
    rw [Nat.add_comm 1 (k + 1)]
    exact h2
  rw [iterStep_add nodes 1 (k + 1) a, h1] at h3
  -- h3 : iterStep nodes (k+1) a1 = some a1? no: h3 is match of some a1 -> iterStep (k+1) a1
  exact h3

lemma stepFn_some_of_cycle (nodes : List ThingNode) (a : String) (k : Nat)
    (h : iterStep nodes (k + 1) a = some a) :
    ∃ b, stepFn nodes a = some b := by
  rw [iterStep] at h
  rcases hs : stepFn nodes a with _ | b
  · rw [hs] at h
    exact absurd h (by simp)
  · exact ⟨b, rfl⟩

/-- A `visit` started at the dictionary node of an external id that lies on a
parent-link cycle can never return ok: the walk keeps following the cycle
and must eventually revisit a marker (or exhaust its fuel). -/
lemma visit_on_cycle_not_ok (nodes : List ThingNode) :
    ∀ (fuel : Nat) (visited : List String) (a : String) (n : ThingNode) (k : Nat),
    iterStep nodes (k + 1) a = some a → lookupNode nodes a = some n →
    visit nodes fuel visited n ≠ .ok := by
  intro fuel
  induction fuel with
  | zero =>
      intro visited a n k _ _
      rw [visit]
      simp
  | succ fuel ih =>
      intro visited a n k hcyc hla
      rw [visit]
      by_cases hvm : n.external_id ∈ visited
      · rw [if_pos hvm]
        simp
      · rw [if_neg hvm]
        have hna : n.external_id = a := (lookupNode_mem_ext nodes a n hla).2
        obtain ⟨a1, hs⟩ := stepFn_some_of_cycle nodes a k hcyc
        have hcyc1 : iterStep nodes (k + 1) a1 = some a1 :=
          cycle_rotate nodes a a1 k hcyc hs
        obtain ⟨a2, hs1⟩ := stepFn_some_of_cycle nodes a1 k hcyc1
        have hl1 : ∃ n1, lookupNode nodes a1 = some n1 := by
          rw [stepFn] at hs1
          rcases hll : lookupNode nodes a1 with _ | n1
          · rw [hll] at hs1
            exact absurd hs1 (by simp)
          · exact ⟨n1, rfl⟩
        obtain ⟨n1, hn1⟩ := hl1
        have htp : truthyParent n = some a1 := by
          rw [stepFn, hla] at hs
          exact hs
        rw [htp]
        show (match lookupNode nodes a1 with
          | none => VisitRes.ok
          | some pn => visit nodes fuel (n.external_id :: visited) pn) ≠
            VisitRes.ok
        rw [hn1]
        exact ih (n.external_id :: visited) a1 n1 k hcyc1 hn1

/-- C1: the cycle check of `CompleteStructure` rejects exactly the
submissions whose `parent_external_node_id` links contain a cycle (so a
cycle-free forest is never spuriously rejected), and the node named by the
error lies on a cycle.  External ids are assumed pairwise distinct, as the
data model demands of a submission. -/
theorem check_for_circular_reference_correct (nodes : List ThingNode)
    (hnd : (nodes.map ThingNode.external_id).Nodup) :
    ((check_for_circular_reference nodes).isSome ↔ HasCycle nodes) ∧
    (∀ e, check_for_circular_reference nodes = some e →
      ∃ k, iterStep nodes (k + 1) e = some e) := by
  have hsound : ∀ e, check_for_circular_reference nodes = some e →
      ∃ k, iterStep nodes (k + 1) e = some e := by
    intro e he
    unfold check_for_circular_reference at he
    obtain ⟨n, hn, hfn⟩ := List.exists_of_findSome?_eq_some he
    rcases hv : visit nodes (nodes.length + 1) [] n with _ | i | _ <;>
      rw [hv] at hfn
    · exact absurd hfn (by simp)
    · have hie : i = e := by simpa using hfn
      subst hie
      exact visit_cycleErr_cycle nodes hnd (nodes.length + 1) [] n i hn
        (by simp) hv
    · exact absurd hfn (by simp)
  refine ⟨⟨?_, ?_⟩, hsound⟩
  · intro hsome
    obtain ⟨e, he⟩ := Option.isSome_iff_exists.mp hsome
    obtain ⟨k, hk⟩ := hsound e he
    exact ⟨e, k, hk⟩
  · rintro ⟨a, k, hcyc⟩
    rcases hc : check_for_circular_reference nodes with _ | e
    · exfalso
      obtain ⟨a1, hs⟩ := stepFn_some_of_cycle nodes a k hcyc
      have hla : ∃ n, lookupNode nodes a = some n := by
        rw [stepFn] at hs
        rcases hl : lookupNode nodes a with _ | n
        · rw [hl] at hs
          exact absurd hs (by simp)
        · exact ⟨n, rfl⟩
      obtain ⟨n, hla⟩ := hla
      have hnm := lookupNode_mem_ext nodes a n hla
      unfold check_for_circular_reference at hc
      have hfn := List.findSome?_eq_none_iff.mp hc n hnm.1
      rcases hv : visit nodes (nodes.length + 1) [] n with _ | i | _
      · exact visit_on_cycle_not_ok nodes (nodes.length + 1) [] a n k hcyc hla hv
      · rw [hv] at hfn
        exact absurd hfn (by simp)
      · refine visit_ne_fuelOut nodes (nodes.length + 1) [] n (by simp)
          (by simp) ?_ (by simp) hv
        exact List.mem_map_of_mem ThingNode.external_id hnm.1
    · simp

/-- Instantiation of `check_for_circular_reference_correct` at the two-node
cycle a -> b -> a. -/
theorem check_for_circular_reference_correct_witness :
    (cyclicNodes.map ThingNode.external_id).Nodup ∧
    (((check_for_circular_reference cyclicNodes).isSome ↔ HasCycle cyclicNodes) ∧
     (∀ e, check_for_circular_reference cyclicNodes = some e →
       ∃ k, iterStep cyclicNodes (k + 1) e = some e)) :=
  ⟨by decide, check_for_circular_reference_correct cyclicNodes (by decide)⟩

lemma findDup_eq_none_iff {α : Type} [DecidableEq α] :
    ∀ (l seen : List α), findDup l seen = none ↔
      (l.Nodup ∧ ∀ a ∈ l, a ∉ seen) := by
  intro l
  induction l with
  | nil => intro seen; simp [findDup]
  | cons a rest ih =>
      intro seen
      rw [findDup]
      by_cases ha : a ∈ seen
      · rw [if_pos ha]
        constructor
        · intro h
          exact absurd h (by simp)
        · rintro ⟨_, hall⟩
          exact absurd ha (hall a (List.mem_cons_self a rest))
      · rw [if_neg ha, ih]
        constructor
        · rintro ⟨hnd, hnotin⟩
          refine ⟨List.nodup_cons.mpr ⟨?_, hnd⟩, ?_⟩
          · intro hmem
            exact (hnotin a hmem) (List.mem_cons_self a seen)
          · intro x hx
            rcases List.mem_cons.mp hx with hxa | hxr
            · exact hxa ▸ ha
            · intro hxs
              exact (hnotin x hxr) (List.mem_cons_of_mem a hxs)
        · rintro ⟨hnd, hall⟩
          have hnd' := List.nodup_cons.mp hnd
          refine ⟨hnd'.2, ?_⟩
          intro x hxr hxs
          rcases List.mem_cons.mp hxs with hxa | hxse
          · exact hnd'.1 (hxa ▸ hxr)
          · exact (hall x (List.mem_cons_of_mem a hxr)) hxse

lemma findDup_some_count {α : Type} [DecidableEq α] :
    ∀ (l seen : List α) (p : α), findDup l seen = some p →
      (p ∈ seen ∧ p ∈ l) ∨ 2 ≤ l.countP (fun x => decide (x = p)) := by
  intro l
  induction l with
  | nil =>
      intro seen p h
      exact absurd h (by simp [findDup])
  | cons a rest ih =>
      intro seen p h
      rw [findDup] at h
      by_cases ha : a ∈ seen
      · rw [if_pos ha] at h
        have hap : a = p := by simpa using h
        subst hap
        exact Or.inl ⟨ha, List.mem_cons_self a rest⟩
      · rw [if_neg ha] at h
        rcases ih (a :: seen) p h with ⟨hps, hpl⟩ | hcount
        · rcases List.mem_cons.mp hps with hpa | hpseen
          · refine Or.inr ?_
            rw [List.countP_cons, if_pos (by simp [hpa.symm])]
            have hone : 0 < rest.countP (fun x => decide (x = p)) :=
              List.countP_pos_iff.mpr ⟨p, hpl, by simp⟩
            omega
          · exact Or.inl ⟨hpseen, List.mem_cons_of_mem a hpl⟩
        · refine Or.inr (hcount.trans ?_)
          rw [List.countP_cons]
          split <;> omega

/-- C6: for each of the four entity lists independently, a repeated
(stakeholder key, external id) pair makes `check_for_duplicate_key_and_id_pairs`
reject naming a pair that indeed occurs at least twice in the named list;
when every list is internally duplicate-free the check passes, and a
submission carrying the SAME pair in two different lists is accepted by the
whole validation. -/
theorem duplicate_pair_check (s : CompleteStructure) :
    ((∃ nl ∈ allPairLists s, ¬nl.2.Nodup) →
      ∃ k i nm pl, check_for_duplicate_key_and_id_pairs s =
        some (.duplicatePair k i nm) ∧ (nm, pl) ∈ allPairLists s ∧
        2 ≤ pl.countP (fun x => decide (x = (k, i)))) ∧
    ((∀ nl ∈ allPairLists s, nl.2.Nodup) →
      check_for_duplicate_key_and_id_pairs s = none) ∧
    validateStructure crossListPairStructure = .accepted ∧
    ("SK1", "X") ∈ pairsOf ElementType.stakeholder_key ElementType.external_id
      crossListPairStructure.element_types ∧
    ("SK1", "X") ∈ pairsOf ThingNode.stakeholder_key ThingNode.external_id
      crossListPairStructure.thing_nodes := by
  refine ⟨?_, ?_, by decide, by decide, by decide⟩
  · rintro ⟨nl, hnl, hnd⟩
    rcases hc : check_for_duplicate_key_and_id_pairs s with _ | e
    · exfalso
      unfold check_for_duplicate_key_and_id_pairs at hc
      have hnone := List.findSome?_eq_none_iff.mp hc nl hnl
      rcases hfd : findDup nl.2 [] with _ | p
      · exact hnd ((findDup_eq_none_iff nl.2 []).mp hfd).1
      · rw [hfd] at hnone
        exact absurd hnone (by simp)
    · unfold check_for_duplicate_key_and_id_pairs at hc
      obtain ⟨nl', hnl', hf⟩ := List.exists_of_findSome?_eq_some hc
      rcases hfd : findDup nl'.2 [] with _ | p
      · rw [hfd] at hf
        exact absurd hf (by simp)
      · rw [hfd] at hf
        have he : e = .duplicatePair p.1 p.2 nl'.1 := by
          have := hf
          simp at this
          exact this.symm
        rcases findDup_some_count nl'.2 [] p hfd with ⟨hps, _⟩ | hcount
        · exact absurd hps (List.not_mem_nil p)
        · refine ⟨p.1, p.2, nl'.1, nl'.2, ?_, ?_, ?_⟩
          · rw [he]
          · simpa using hnl'
          · simpa using hcount
  · intro hall
    unfold check_for_duplicate_key_and_id_pairs
    rw [List.findSome?_eq_none_iff]
    intro nl hnl
    have hfd : findDup nl.2 [] = none :=
      (findDup_eq_none_iff nl.2 []).mpr ⟨hall nl hnl, by simp⟩
    rw [hfd]

/-- Instantiation of `duplicate_pair_check` at a submission whose
element_types list repeats the pair ("SK1", "T1"). -/
theorem duplicate_pair_check_witness :
    (∃ nl ∈ allPairLists dupPairStructure, ¬nl.2.Nodup) ∧
    (∃ k i nm pl, check_for_duplicate_key_and_id_pairs dupPairStructure =
      some (.duplicatePair k i nm) ∧ (nm, pl) ∈ allPairLists dupPairStructure ∧
      2 ≤ pl.countP (fun x => decide (x = (k, i)))) :=
  ⟨by decide, (duplicate_pair_check dupPairStructure).1 (by decide)⟩

/-- A submission accepted by the full pipeline passed every single check. -/
lemma validateStructure_accepted_checks (s : CompleteStructure)
    (h : validateStructure s = .accepted) :
    validate_root_nodes_parent_ids_are_none s = none ∧
    check_for_duplicate_key_and_id_pairs s = none ∧
    check_for_duplicate_ids_in_thing_node_external_ids s = none ∧
    check_stakeholder_key_consistency s = .pass ∧
    check_for_circular_reference s.thing_nodes = none ∧
    validate_source_sink_references s = none ∧
    check_element_types_not_empty s = none := by
  unfold validateStructure at h
  repeat' split at h
  all_goals simp_all

lemma dupTnIdsErr_eq_none (listName extId : String) (tne : Option (List String))
    (h : dupTnIdsErr listName extId tne = none) :
    ∃ ids, tne = some ids ∧ ids.Nodup := by
  rcases tne with _ | ids
  · exact absurd h (by simp [dupTnIdsErr])
  · rcases hfd : findDup ids [] with _ | i
    · exact ⟨ids, rfl, ((findDup_eq_none_iff ids []).mp hfd).1⟩
    · exfalso
      rw [dupTnIdsErr] at h
      rw [hfd] at h
      exact absurd h (by simp)

lemma dup_ids_check_shape (s : CompleteStructure)
    (hdup : check_for_duplicate_ids_in_thing_node_external_ids s = none) :
    (∀ src ∈ s.sources, ∃ ids, src.thing_node_external_ids = some ids ∧
      ids.Nodup) ∧
    (∀ sk ∈ s.sinks, ∃ ids, sk.thing_node_external_ids = some ids ∧
      ids.Nodup) := by
  unfold check_for_duplicate_ids_in_thing_node_external_ids at hdup
  rcases hs : s.sources.findSome? (fun src =>
      dupTnIdsErr "sources" src.external_id src.thing_node_external_ids)
    with _ | e
  · rw [hs] at hdup
    constructor
    · intro src hsrc
      exact dupTnIdsErr_eq_none _ _ _ (List.findSome?_eq_none_iff.mp hs src hsrc)
    · intro sk hsk
      exact dupTnIdsErr_eq_none _ _ _ (List.findSome?_eq_none_iff.mp hdup sk hsk)
  · rw [hs] at hdup
    exact absurd hdup (by simp)

lemma sourceRefErr_membership (tns : List ThingNode) (src : Source)
    (h : sourceRefErr tns src = none) :
    ∀ ids, src.thing_node_external_ids = some ids →
    ∀ i ∈ ids, i ∈ tns.map ThingNode.external_id := by
  intro ids ht i hi
  rw [sourceRefErr, ht] at h
  have h' : ids.findSome? (fun tn_id =>
      if tn_id ∈ tns.map ThingNode.external_id then none
      else some (StructuralError.sourceRefMissing src.external_id tn_id)) =
        none := h
  have hfi := List.findSome?_eq_none_iff.mp h' i hi
  by_cases hm : i ∈ tns.map ThingNode.external_id
  · exact hm
  · rw [if_neg hm] at hfi
    exact absurd hfi (by simp)

lemma sinkRefErr_membership (tns : List ThingNode) (sources : List Source)
    (sk : Sink) (h : sinkRefErr tns sources sk = none) :
    ∀ ids, sk.thing_node_external_ids = some ids →
    ∀ i ∈ ids, i ∈ tns.map ThingNode.external_id := by
  intro ids ht i hi
  rw [sinkRefErr, ht] at h
  have h' : ids.findSome? (fun tn_id =>
      if tn_id ∈ tns.map ThingNode.external_id then none
      else
        match sources.getLast? with
        | some lastSource =>
            some (StructuralError.sinkRefMissing lastSource.external_id tn_id)
        | none => some (StructuralError.nameErrorUnboundSource tn_id)) =
        none := h
  have hfi := List.findSome?_eq_none_iff.mp h' i hi
  by_cases hm : i ∈ tns.map ThingNode.external_id
  · exact hm
  · rw [if_neg hm] at hfi
    rcases hls : sources.getLast? with _ | lastSource <;> rw [hls] at hfi <;>
      exact absurd hfi (by simp)

lemma ref_check_membership (s : CompleteStructure)
    (href : validate_source_sink_references s = none) :
    (∀ src ∈ s.sources, ∀ ids, src.thing_node_external_ids = some ids →
      ∀ i ∈ ids, i ∈ s.thing_nodes.map ThingNode.external_id) ∧
    (∀ sk ∈ s.sinks, ∀ ids, sk.thing_node_external_ids = some ids →
      ∀ i ∈ ids, i ∈ s.thing_nodes.map ThingNode.external_id) := by
  unfold validate_source_sink_references at href
  rcases hs : s.sources.findSome? (fun src => sourceRefErr s.thing_nodes src)
    with _ | e
  · rw [hs] at href
    constructor
    · intro src hsrc
      exact sourceRefErr_membership s.thing_nodes src
        (List.findSome?_eq_none_iff.mp hs src hsrc)
    · intro sk hsk
      exact sinkRefErr_membership s.thing_nodes s.sources sk
        (List.findSome?_eq_none_iff.mp href sk hsk)
  · rw [hs] at href
    exact absurd href (by simp)

/-- C9 counterexample: a fully accepted structure whose only Source has an
EMPTY `thing_node_external_ids` list, so an accepted Source need not carry
at least one ThingNode attachment. -/
theorem accepted_source_with_empty_attachments :
    validateStructure emptyAttachmentStructure = .accepted ∧
    emptyAttachmentStructure.sources.map Source.thing_node_external_ids =
      [some []] := by
  decide

/-- C9 amended: in an accepted structure every Source and Sink carries a
PRESENT `thing_node_external_ids` list (not None/absent) whose entries are
pairwise distinct and all reference submitted ThingNodes — but the list may
be empty. -/
theorem accepted_source_sink_attachments (s : CompleteStructure)
    (h : validateStructure s = .accepted) :
    (∀ src ∈ s.sources, ∃ ids, src.thing_node_external_ids = some ids ∧
      ids.Nodup ∧ ∀ i ∈ ids, i ∈ s.thing_nodes.map ThingNode.external_id) ∧
    (∀ sk ∈ s.sinks, ∃ ids, sk.thing_node_external_ids = some ids ∧
      ids.Nodup ∧ ∀ i ∈ ids, i ∈ s.thing_nodes.map ThingNode.external_id) := by
  obtain ⟨_, _, hdup, _, _, href, _⟩ := validateStructure_accepted_checks s h
  obtain ⟨hds, hdk⟩ := dup_ids_check_shape s hdup
  obtain ⟨hrs, hrk⟩ := ref_check_membership s href
  constructor
  · intro src hsrc
    obtain ⟨ids, ht, hnd⟩ := hds src hsrc
    exact ⟨ids, ht, hnd, hrs src hsrc ids ht⟩
  · intro sk hsk
    obtain ⟨ids, ht, hnd⟩ := hdk sk hsk
    exact ⟨ids, ht, hnd, hrk sk hsk ids ht⟩

/-- Instantiation of `accepted_source_sink_attachments` at the accepted
structure with an empty attachment list. -/
theorem accepted_source_sink_attachments_witness :
    validateStructure emptyAttachmentStructure = .accepted ∧
    ((∀ src ∈ emptyAttachmentStructure.sources, ∃ ids,
        src.thing_node_external_ids = some ids ∧ ids.Nodup ∧
        ∀ i ∈ ids, i ∈ emptyAttachmentStructure.thing_nodes.map
          ThingNode.external_id) ∧
     (∀ sk ∈ emptyAttachmentStructure.sinks, ∃ ids,
        sk.thing_node_external_ids = some ids ∧ ids.Nodup ∧
        ∀ i ∈ ids, i ∈ emptyAttachmentStructure.thing_nodes.map
          ThingNode.external_id)) :=
  ⟨by decide, accepted_source_sink_attachments emptyAttachmentStructure (by decide)⟩

/-- C5: at a submission whose only sink references the non-existing ThingNode
"GhostNode", the rejection message built at models.py line 556 names the last
SOURCE ("Source1") instead of the offending sink ("Sink1"), because the sink
loop interpolates the leaked loop variable `source`. -/
theorem sink_error_names_last_source :
    validate_source_sink_references sinkBadRefStructure =
      some (.sinkRefMissing "Source1" "GhostNode") ∧
    sinkBadRefStructure.sinks.map Sink.external_id = ["Sink1"] ∧
    sinkBadRefStructure.sources.map Source.external_id = ["Source1"] ∧
    validateStructure sinkBadRefStructure =
      .rejected (.sinkRefMissing "Source1" "GhostNode") := by
  decide

lemma validate_root_shape (s : CompleteStructure) (e : StructuralError)
    (h : validate_root_nodes_parent_ids_are_none s = some e) :
    ∃ nm pid, e = .danglingParent nm pid := by
  unfold validate_root_nodes_parent_ids_are_none at h
  obtain ⟨m, hm, hfm⟩ := List.exists_of_findSome?_eq_some h
  rcases hq : m.parent_external_node_id with _ | q
  · rw [hq] at hfm
    exact absurd hfm (by simp)
  · rw [hq] at hfm
    have hfm' : (if q ∈ s.thing_nodes.map (fun n => n.external_id) then none
        else some (StructuralError.danglingParent m.name q)) = some e := hfm
    by_cases hqm : q ∈ s.thing_nodes.map (fun n => n.external_id)
    · rw [if_pos hqm] at hfm'
      exact absurd hfm' (by simp)
    · rw [if_neg hqm] at hfm'
      exact ⟨m.name, q, by simpa using hfm'.symm⟩

lemma validate_root_some_of_dangling (s : CompleteStructure)
    (h : ∃ n ∈ s.thing_nodes, ∃ p, n.parent_external_node_id = some p ∧
      p ∉ s.thing_nodes.map ThingNode.external_id) :
    ∃ e, validate_root_nodes_parent_ids_are_none s = some e := by
  obtain ⟨n, hn, p, hp, hpm⟩ := h
  rcases hf : validate_root_nodes_parent_ids_are_none s with _ | e
  · exfalso
    unfold validate_root_nodes_parent_ids_are_none at hf
    have hnone := List.findSome?_eq_none_iff.mp hf n hn
    rw [hp] at hnone
    have hnone' : (if p ∈ s.thing_nodes.map (fun n => n.external_id) then none
        else some (StructuralError.danglingParent n.name p)) = none := hnone
    have hpm' : p ∉ s.thing_nodes.map (fun n => n.external_id) := hpm
    rw [if_neg hpm'] at hnone'
    exact absurd hnone' (by simp)
  · exact ⟨e, rfl⟩

/-- C4 counterexample: a submission with BOTH an empty element_types list and
a dangling parent reference is rejected with the dangling-parent error, not
the empty-element-types error — so the empty-element_types check does not run
first. -/
theorem empty_and_dangling_rejected_with_dangling :
    validateStructure emptyAndDanglingStructure =
      .rejected (.danglingParent "Node 1" "MissingParent") ∧
    emptyAndDanglingStructure.element_types = [] ∧
    validateStructure emptyAndDanglingStructure ≠
      .rejected .emptyElementTypes := by
  decide

/-- C4 amended: the empty-element_types check is a pydantic field validator
and therefore runs only after every pre root validator; a submission with an
empty element_types list is never accepted, but when it also carries a
dangling parent reference the rejection produced is the dangling-parent one,
and the empty-element_types rejection appears exactly when all pre root
validators pass. -/
theorem empty_element_types_check_runs_last (s : CompleteStructure)
    (h : s.element_types = []) :
    validateStructure s ≠ .accepted ∧
    ((∃ n ∈ s.thing_nodes, ∃ p, n.parent_external_node_id = some p ∧
        p ∉ s.thing_nodes.map ThingNode.external_id) →
      ∃ nm pid, validateStructure s = .rejected (.danglingParent nm pid)) ∧
    ((validate_root_nodes_parent_ids_are_none s = none ∧
      check_for_duplicate_key_and_id_pairs s = none ∧
      check_for_duplicate_ids_in_thing_node_external_ids s = none ∧
      check_stakeholder_key_consistency s = .pass ∧
      check_for_circular_reference s.thing_nodes = none ∧
      validate_source_sink_references s = none) →
      validateStructure s = .rejected .emptyElementTypes) := by
  refine ⟨?_, ?_, ?_⟩
  · intro hacc
    have hlast := (validateStructure_accepted_checks s hacc).2.2.2.2.2.2
    simp [check_element_types_not_empty, h] at hlast
  · intro hdang
    obtain ⟨e, he⟩ := validate_root_some_of_dangling s hdang
    obtain ⟨nm, pid, hshape⟩ := validate_root_shape s e he
    subst hshape
    refine ⟨nm, pid, ?_⟩
    unfold validateStructure
    rw [he]
  · rintro ⟨h1, h2, h3, h4, h5, h6⟩
    have h7 : check_element_types_not_empty s = some .emptyElementTypes := by
      simp [check_element_types_not_empty, h]
    unfold validateStructure
    rw [h1, h2, h3, h4, h5, h6, h7]

/-- Instantiation of `empty_element_types_check_runs_last` at the submission
with both defects. -/
theorem empty_element_types_check_runs_last_witness :
    emptyAndDanglingStructure.element_types = [] ∧
    (validateStructure emptyAndDanglingStructure ≠ .accepted ∧
     ((∃ n ∈ emptyAndDanglingStructure.thing_nodes, ∃ p,
         n.parent_external_node_id = some p ∧
         p ∉ emptyAndDanglingStructure.thing_nodes.map ThingNode.external_id) →
       ∃ nm pid, validateStructure emptyAndDanglingStructure =
         .rejected (.danglingParent nm pid)) ∧
     ((validate_root_nodes_parent_ids_are_none emptyAndDanglingStructure = none ∧
       check_for_duplicate_key_and_id_pairs emptyAndDanglingStructure = none ∧
       check_for_duplicate_ids_in_thing_node_external_ids
         emptyAndDanglingStructure = none ∧
       check_stakeholder_key_consistency emptyAndDanglingStructure = .pass ∧
       check_for_circular_reference emptyAndDanglingStructure.thing_nodes = none ∧
       validate_source_sink_references emptyAndDanglingStructure = none) →
       validateStructure emptyAndDanglingStructure =
         .rejected .emptyElementTypes)) :=
  ⟨by decide, empty_element_types_check_runs_last emptyAndDanglingStructure
    (by decide)⟩
